import Mathlib

/-!
# donate: checkout-session validator and webhook pipeline

A shallow embedding of `server.go`.  The two HTTP handlers
`endpointSessionCreate` and `endpointWebhookCallback` are pure functions of
the request, the configuration and a `World` that fixes what every remote
service answers.  A handler run yields the final `ResponseWriter`, the list
of effects it performed (log records and outbound calls, in order) and
whether it panicked.
-/

namespace Donate

/-! ## Data model -/

/-- The configuration fields read by the two handlers (`config.Key.Webhook`,
`config.Host.Domain`, `config.Discord.Webhook`). -/
structure configStructure where
  KeyWebhook : String
  HostDomain : String
  DiscordWebhook : String
deriving DecidableEq, Repr

/-- Go `genericError`, marshalled as a JSON object with the single key `error`. -/
structure genericError where
  Error : String
deriving DecidableEq, Repr

/-- Go `sessionCreateRequest`. -/
structure sessionCreateRequest where
  Price : String
  Name : String
  Fortune : String
deriving DecidableEq, Repr

/-- Go `sessionCreateResponse`. -/
structure sessionCreateResponse where
  SessionID : String
deriving DecidableEq, Repr

/-- Go `discordField`. -/
structure discordField where
  Name : String
  Value : String
deriving DecidableEq, Repr

/-- Go `discordEmbed`. -/
structure discordEmbed where
  Title : String
  Color : Nat
  Fields : List discordField
deriving DecidableEq, Repr

/-- Go `discordWebhook`. -/
structure discordWebhook where
  Embeds : List discordEmbed
deriving DecidableEq, Repr

/-- What a handler hands to `w.Write`: the JSON encoding of one of the two
response structures.  The encoding itself belongs to `encoding/json`; the
embedding keeps the encoded value. -/
inductive Payload where
  | errorJSON (e : genericError)
  | sessionJSON (r : sessionCreateResponse)
deriving DecidableEq, Repr

/-! ## The processor's types (stripe-go v72), as far as the handlers use them -/

/-- The stripe type `CheckoutSessionLineItemPriceDataProductDataParams`. -/
structure ProductDataParams where
  Name : String
deriving DecidableEq, Repr

/-- The stripe type `CheckoutSessionLineItemPriceDataParams`. -/
structure PriceDataParams where
  Currency : String
  ProductData : ProductDataParams
  UnitAmount : Int
deriving DecidableEq, Repr

/-- The stripe type `CheckoutSessionLineItemParams`. -/
structure LineItemParams where
  PriceData : PriceDataParams
  Quantity : Int
deriving DecidableEq, Repr

/-- The stripe type `CheckoutSessionParams`; `Metadata` is a Go map, kept as
an association list read with `List.lookup`. -/
structure CheckoutSessionParams where
  PaymentMethodTypes : List String
  LineItems : List LineItemParams
  Mode : String
  SuccessURL : String
  CancelURL : String
  Metadata : List (String × String)
deriving DecidableEq, Repr

/-- The stripe type `PaymentIntent`: identifier and amount in minor units (`int64`). -/
structure PaymentIntent where
  ID : String
  Amount : Int
deriving DecidableEq, Repr

/-- The stripe type `CheckoutSession`.  `PaymentIntent` is a pointer in Go and is
`none` when the JSON carries no payment intent. -/
structure CheckoutSession where
  ID : String
  Metadata : List (String × String)
  PaymentIntent : Option PaymentIntent
deriving DecidableEq, Repr

/-- The stripe type `Event`: the type tag (Go field `Type`) and the raw JSON of `Data`. -/
structure Event where
  Type_ : String
  DataRaw : List UInt8
deriving DecidableEq, Repr

/-- The failures of `webhook.ConstructEvent`. -/
inductive WebhookError where
  | invalidHeader
  | notSigned
  | noValidSignature
  | tooOld
  | badPayload
deriving DecidableEq, Repr

/-- Constant `stripe.CurrencyUSD`. -/
def CurrencyUSD : String := "usd"

/-- Constant `stripe.CheckoutSessionModePayment`. -/
def CheckoutSessionModePayment : String := "payment"

/-- Go map assignment `m[key] = value` on an association list. -/
def mapSet (m : List (String × String)) (key value : String) : List (String × String) :=
  match m with
  | [] => [(key, value)]
  | (k, v) :: rest => if k = key then (key, value) :: rest else (k, v) :: mapSet rest key value

/-- The stripe method `Params.AddMetadata`. -/
def CheckoutSessionParams.AddMetadata (p : CheckoutSessionParams) (key value : String) :
    CheckoutSessionParams :=
  { p with Metadata := mapSet p.Metadata key value }

/-! ## The environment -/

/-- An inbound HTTP request. -/
structure Request where
  Method : String
  Body : List UInt8
  Header : List (String × String)
  RemoteAddr : String
deriving DecidableEq, Repr

/-- Go `Header.Get`: the value of the key, the empty string when absent. -/
def headerGet (h : List (String × String)) (key : String) : String :=
  (h.lookup key).getD ""

/-- Answers of the remote services and library decoders for one handler run. -/
structure World where
  unmarshalRequest : List UInt8 → Except String sessionCreateRequest
  sessionNew : CheckoutSessionParams → Except String CheckoutSession
  constructEvent : List UInt8 → String → String → Except WebhookError Event
  unmarshalSession : List UInt8 → Except String CheckoutSession
  paymentIntentGet : String → Except String PaymentIntent
  httpPost : String → String → discordWebhook → Except String Unit

/-- An observable action of a handler, apart from writing the response. -/
inductive Effect where
  | log (msg : String)
  | sessionNew (params : CheckoutSessionParams)
  | paymentIntentGet (id : String)
  | httpPost (url contentType : String) (body : discordWebhook)
deriving DecidableEq, Repr

/-! ## `http.ResponseWriter` -/

/-- The state of a `net/http` response writer: whether the status line went
out, the status, the live header map, the headers that went out with the
status line, and the payloads written so far. -/
structure ResponseWriter where
  wroteHeader : Bool := false
  status : Nat := 0
  header : List (String × String) := []
  sentHeader : List (String × String) := []
  body : List Payload := []
deriving DecidableEq, Repr

/-- Go `w.WriteHeader`: the first call fixes the status and the headers sent;
later calls are ignored. -/
def ResponseWriter.WriteHeader (w : ResponseWriter) (statusCode : Nat) : ResponseWriter :=
  if w.wroteHeader then w
  else { w with wroteHeader := true, status := statusCode, sentHeader := w.header }

/-- Go `w.Header().Set`. -/
def ResponseWriter.HeaderSet (w : ResponseWriter) (key value : String) : ResponseWriter :=
  { w with header := mapSet w.header key value }

/-- Go `w.Write`: sends status 200 first when no status went out yet. -/
def ResponseWriter.Write (w : ResponseWriter) (data : Payload) : ResponseWriter :=
  let w1 := w.WriteHeader 200
  { w1 with body := w1.body ++ [data] }

/-- The status the client receives once the handler has returned: the one
written, or 200 when the handler wrote nothing. -/
def ResponseWriter.finalStatus (w : ResponseWriter) : Nat :=
  if w.wroteHeader then w.status else 200

/-- Go `writeError`. -/
def writeError (w : ResponseWriter) (statusCode : Nat) (message : String) : ResponseWriter :=
  let w := w.WriteHeader statusCode
  let w := w.HeaderSet "Content-Type" "application/json"
  w.Write (Payload.errorJSON { Error := message })

/-- The result of one handler run. -/
structure Outcome where
  w : ResponseWriter
  effects : List Effect
  panicked : Bool
deriving DecidableEq, Repr

/-- Reading the whole body through `http.MaxBytesReader` with limit `n`. -/
def readAllMax (body : List UInt8) (n : Nat) : Except String (List UInt8) :=
  if body.length > n then .error "http: request body too large" else .ok body

/-! ## `strconv.Atoi` -/

/-- The failures of `strconv.Atoi`. -/
inductive NumError where
  | ErrSyntax
  | ErrRange
deriving DecidableEq, Repr

/-- Value of a decimal digit byte. -/
def digitVal (c : Char) : Option Nat :=
  if '0' ≤ c ∧ c ≤ '9' then some (c.toNat - '0'.toNat) else none

/-- Base-10 digit loop of `strconv.ParseUint`, without the width cut-off. -/
def parseDigits : List Char → Nat → Option Nat
  | [], acc => some acc
  | c :: cs, acc =>
    match digitVal c with
    | none => none
    | some d => parseDigits cs (acc * 10 + d)

/-- Go `strconv.Atoi` for a 64-bit `int`: an optional sign, one or more
decimal digits, and the value within `-2^63 .. 2^63 - 1`. -/
def Atoi (s : String) : Except NumError Int :=
  let signed : Bool × List Char :=
    match s.data with
    | '-' :: ds => (true, ds)
    | '+' :: ds => (false, ds)
    | ds => (false, ds)
  let neg := signed.1
  let ds := signed.2
  if ds.isEmpty then .error .ErrSyntax
  else
    match parseDigits ds 0 with
    | none => .error .ErrSyntax
    | some un =>
      if !neg && un ≥ 2 ^ 63 then .error .ErrRange
      else if neg && un > 2 ^ 63 then .error .ErrRange
      else .ok (if neg then -(un : Int) else (un : Int))

/-- Go `len` of a string: its number of bytes (UTF-8). -/
def len (s : String) : Nat := s.utf8ByteSize

/-! ## `endpointSessionCreate` -/

/-- The parameters `endpointSessionCreate` builds for `session.New`. -/
def sessionParams (config : configStructure) (price : Int) (requestData : sessionCreateRequest) :
    CheckoutSessionParams :=
  let params : CheckoutSessionParams :=
    { PaymentMethodTypes := ["card"]
      LineItems :=
        [{ PriceData :=
             { Currency := CurrencyUSD
               ProductData := { Name := "Fortune Telling" }
               UnitAmount := price }
           Quantity := 1 }]
      Mode := CheckoutSessionModePayment
      SuccessURL := config.HostDomain ++ "/success?session_id=\x7bCHECKOUT_SESSION_ID\x7d"
      CancelURL := config.HostDomain ++ "/cancel"
      Metadata := [] }
  let params := params.AddMetadata "name" requestData.Name
  params.AddMetadata "fortune" requestData.Fortune

/-- Go `endpointSessionCreate`. -/
def endpointSessionCreate (config : configStructure) (world : World) (req : Request) : Outcome :=
  let w : ResponseWriter := {}
  if req.Method ≠ "POST" then
    ⟨writeError w 405 "Method not allowed", [], false⟩
  else
    match readAllMax req.Body 65535 with
    | .error err => ⟨w, [.log ("Failed reading request: " ++ err ++ "\n")], false⟩
    | .ok requestBody =>
      match world.unmarshalRequest requestBody with
      | .error _ => ⟨writeError w 400 "Malformed request", [], false⟩
      | .ok requestData =>
        match Atoi requestData.Price with
        | .error _ => ⟨writeError w 400 "Malformed request", [], false⟩
        | .ok price =>
          if price < 100 then
            ⟨writeError w 400 "Price too low", [], false⟩
          else if len requestData.Name > 300 then
            ⟨writeError w 400 "Name too long", [], false⟩
          else if len requestData.Fortune > 3000 then
            ⟨writeError w 400 "Fortune too long", [], false⟩
          else
            let params := sessionParams config price requestData
            match world.sessionNew params with
            | .error err =>
              ⟨w, [.sessionNew params, .log ("Failed creating session: " ++ err ++ "\n")], false⟩
            | .ok session =>
              let w := w.WriteHeader 200
              let w := w.HeaderSet "Content-Type" "application/json"
              let w := w.Write (Payload.sessionJSON { SessionID := session.ID })
              ⟨w, [.sessionNew params,
                   .log ("Created new checkout session for " ++ req.RemoteAddr ++ "\n")], false⟩

/-! ## Floating point: `float64(amount) / 100.0` and `%.2f`

A binary64 value is kept as an exact dyadic rational `num / den` with a sign.
Every value the program computes here is `0` or has a magnitude between
`1/100` and `2^63`, far from the overflow and underflow thresholds, so
rounding is rounding to 53 significant bits, ties to even. -/

/-- A finite binary64 value: `(-1)^neg * num / den`. -/
structure Float64 where
  neg : Bool
  num : Nat
  den : Nat
deriving DecidableEq, Repr

/-- Number of binary digits of `n`; the first argument bounds the recursion. -/
def bitLengthAux : Nat → Nat → Nat
  | 0, _ => 0
  | fuel + 1, n => if n = 0 then 0 else bitLengthAux fuel (n / 2) + 1

/-- Number of binary digits of `n` (`0` for `0`). -/
def bitLength (n : Nat) : Nat := bitLengthAux n n

/-- The integer nearest to `n / d`, ties to the even one. -/
def divRoundHalfEven (n d : Nat) : Nat :=
  let q := n / d
  let r := n % d
  if 2 * r < d then q
  else if d < 2 * r then q + 1
  else if q % 2 = 0 then q else q + 1

/-- The exponent `e` of the unit in the last place for the positive rational
`n / d`: the one with `2^52 ≤ (n / d) / 2^e < 2^53`. -/
def ulpExponent (n d : Nat) : Int :=
  let k : Int := (bitLength n : Int) - (bitLength d : Int)
  let l : Int := if d * 2 ^ k.toNat ≤ n * 2 ^ (-k).toNat then k else k - 1
  l - 52

/-- Rounding of the rational `(-1)^neg * n / d` to the nearest binary64 value. -/
def roundFloat64 (neg : Bool) (n d : Nat) : Float64 :=
  if n = 0 then { neg := neg, num := 0, den := 1 }
  else
    let e := ulpExponent n d
    let m := divRoundHalfEven (n * 2 ^ (-e).toNat) (d * 2 ^ e.toNat)
    { neg := neg, num := m * 2 ^ e.toNat, den := 2 ^ (-e).toNat }

/-- Go conversion `float64(x)` of an `int64`. -/
def Float64.ofInt (x : Int) : Float64 :=
  roundFloat64 (decide (x < 0)) x.natAbs 1

/-- Go `x / y` on `float64`, for a non-zero `y`. -/
def Float64.div (x y : Float64) : Float64 :=
  roundFloat64 (x.neg != y.neg) (x.num * y.den) (x.den * y.num)

/-- The constant `100.0`. -/
def Float64.hundred : Float64 := { neg := false, num := 100, den := 1 }

/-- Two decimal digits of a number below 100. -/
def twoDigits (n : Nat) : String :=
  String.mk [Nat.digitChar (n / 10), Nat.digitChar (n % 10)]

/-- Go `fmt.Sprintf("%.2f", x)`: the exact value of `x` rounded to two decimals,
ties to even. -/
def sprintf2f (x : Float64) : String :=
  let n := divRoundHalfEven (x.num * 100) x.den
  (if x.neg then "-" else "") ++ toString (n / 100) ++ "." ++ twoDigits (n % 100)

/-- The value of the `Price` field: `"$" + fmt.Sprintf("%.2f", float64(amount)/100.0)`. -/
def priceValue (amount : Int) : String :=
  "$" ++ sprintf2f ((Float64.ofInt amount).div Float64.hundred)

/-! ## `endpointWebhookCallback` -/

/-- The notification `endpointWebhookCallback` builds. -/
def notification (username fortune : String) (price : Option Int) : discordWebhook :=
  let webhookStructure : discordWebhook := { Embeds := [] }
  let webhookStructure : discordWebhook :=
    { Embeds := webhookStructure.Embeds ++
        [{ Title := "New Request", Color := 0x00cc00, Fields := [] }] }
  let addFields (fs : List discordField) (ws : discordWebhook) : discordWebhook :=
    match ws.Embeds with
    | [] => ws
    | e :: rest => { Embeds := { e with Fields := e.Fields ++ fs } :: rest }
  let webhookStructure :=
    addFields [{ Name := "Name", Value := username }, { Name := "Fortune", Value := fortune }]
      webhookStructure
  match price with
  | none => webhookStructure
  | some amount => addFields [{ Name := "Price", Value := priceValue amount }] webhookStructure

/-- Go `endpointWebhookCallback`. -/
def endpointWebhookCallback (config : configStructure) (world : World) (req : Request) : Outcome :=
  let w : ResponseWriter := {}
  match readAllMax req.Body 65536 with
  | .error err => ⟨w, [.log ("Failed reading request: " ++ err ++ "\n")], false⟩
  | .ok payload =>
    match world.constructEvent payload (headerGet req.Header "Stripe-Signature")
        config.KeyWebhook with
    | .error _ => ⟨writeError w 400 "Malformed request", [], false⟩
    | .ok event =>
      if event.Type_ ≠ "checkout.session.completed" then ⟨w, [], false⟩
      else
        match world.unmarshalSession event.DataRaw with
        | .error err => ⟨w, [.log ("Failed parsing event: " ++ err ++ "\n")], false⟩
        | .ok checkoutSession =>
          match checkoutSession.Metadata.lookup "name" with
          | none => ⟨w, [], false⟩
          | some username =>
            match checkoutSession.Metadata.lookup "fortune" with
            | none => ⟨w, [], false⟩
            | some fortune =>
              match checkoutSession.PaymentIntent with
              | none => ⟨w, [], true⟩
              | some pi =>
                let lookup := world.paymentIntentGet pi.ID
                let price : Option Int :=
                  match lookup with
                  | .ok paymentIntent => some paymentIntent.Amount
                  | .error _ => none
                let webhookStructure := notification username fortune price
                let post : Effect :=
                  .httpPost config.DiscordWebhook "application/json" webhookStructure
                match world.httpPost config.DiscordWebhook "application/json"
                    webhookStructure with
                | .error err =>
                  ⟨w, [.paymentIntentGet pi.ID, post,
                       .log ("Failed executing webhook: " ++ err ++ "\n")], false⟩
                | .ok _ => ⟨w.WriteHeader 200, [.paymentIntentGet pi.ID, post], false⟩

/-! ## Observations on an outcome -/

/-- The sink calls of a run, in order. -/
def sinkCalls : List Effect → List discordWebhook
  | [] => []
  | .httpPost _ _ body :: rest => body :: sinkCalls rest
  | _ :: rest => sinkCalls rest

/-- The payment-intent lookups of a run, in order. -/
def lookups : List Effect → List String
  | [] => []
  | .paymentIntentGet id :: rest => id :: lookups rest
  | _ :: rest => lookups rest

/-- The session-create calls of a run, in order. -/
def sessionCalls : List Effect → List CheckoutSessionParams
  | [] => []
  | .sessionNew params :: rest => params :: sessionCalls rest
  | _ :: rest => sessionCalls rest

/-- The log records of a run, in order. -/
def logRecords : List Effect → List String
  | [] => []
  | .log msg :: rest => msg :: logRecords rest
  | _ :: rest => logRecords rest

/-- What the client receives: nothing when the handler panicked (the server
drops the connection), else the final status and the payloads written. -/
def Outcome.response (o : Outcome) : Option (Nat × List Payload) :=
  if o.panicked then none else some (o.w.finalStatus, o.w.body)

/-- The two-decimal rendering of `a / 100` in the words of the claim: the
decimal digits of `a div 100`, a point, and `a mod 100` written with exactly
two digits. -/
def twoDecimals (a : Nat) : String :=
  toString (a / 100) ++ "." ++ twoDigits (a % 100)

/-! ## Request classes -/

/-- A `/session` request that passes every check of `endpointSessionCreate`:
method `POST`, a body within the size limit that decodes to `d`, a price
that `Atoi` reads as `a`, and the three bounds. -/
structure Validated (world : World) (req : Request) (a : Int) (d : sessionCreateRequest) :
    Prop where
  method : req.Method = "POST"
  size : req.Body.length ≤ 65535
  parsed : world.unmarshalRequest req.Body = .ok d
  price : Atoi d.Price = .ok a
  amount : 100 ≤ a
  name : len d.Name ≤ 300
  fortune : len d.Fortune ≤ 3000

/-- A webhook request whose body is within the size limit and for which
`webhook.ConstructEvent` returns `event`. -/
def Verified (config : configStructure) (world : World) (req : Request) (event : Event) : Prop :=
  req.Body.length ≤ 65536 ∧
    world.constructEvent req.Body (headerGet req.Header "Stripe-Signature") config.KeyWebhook
      = .ok event

/-- An event of type `checkout.session.completed` whose data decodes to the
checkout session `cs`. -/
def Completed (world : World) (event : Event) (cs : CheckoutSession) : Prop :=
  event.Type_ = "checkout.session.completed" ∧ world.unmarshalSession event.DataRaw = .ok cs

/-! ## Sample inputs -/

/-- A configuration. -/
def sampleConfig : configStructure :=
  { KeyWebhook := "whsec_test", HostDomain := "https://donate.example",
    DiscordWebhook := "https://discord.example/hook" }

/-- A request with an empty body; the sample worlds fix what it decodes to. -/
def sampleRequest : Request :=
  { Method := "POST", Body := [], Header := [("Stripe-Signature", "t=1,v1=00")],
    RemoteAddr := "192.0.2.1:4000" }

/-- A world that gives the same answer to every call of each service. -/
def constWorld (requestData : sessionCreateRequest) (session : Except String CheckoutSession)
    (event : Except WebhookError Event) (checkoutSession : Except String CheckoutSession)
    (paymentIntent : Except String PaymentIntent) (post : Except String Unit) : World :=
  { unmarshalRequest := fun _ => .ok requestData
    sessionNew := fun _ => session
    constructEvent := fun _ _ _ => event
    unmarshalSession := fun _ => checkoutSession
    paymentIntentGet := fun _ => paymentIntent
    httpPost := fun _ _ _ => post }

/-- The request data of the end-to-end scenario. -/
def aliceData : sessionCreateRequest := { Price := "500", Name := "Alice", Fortune := "Good luck" }

/-- The completion event of the processor. -/
def completedEvent : Event := { Type_ := "checkout.session.completed", DataRaw := [] }

/-- A checkout session that echoes the metadata of `aliceData`. -/
def aliceSession (paymentIntent : Option PaymentIntent) : CheckoutSession :=
  { ID := "cs_test_1", Metadata := [("name", "Alice"), ("fortune", "Good luck")],
    PaymentIntent := paymentIntent }

/-- The payment intent of the sample session. -/
def alicePayment : PaymentIntent := { ID := "pi_1", Amount := 500 }

/-- Request data with a name of 300 two-byte characters. -/
def accentedData : sessionCreateRequest :=
  { Price := "100", Name := String.mk (List.replicate 300 'é'), Fortune := "" }

/-- Request data with a price below the range of a 64-bit `int`. -/
def hugeNegativeData : sessionCreateRequest :=
  { Price := toString (-9223372036854775809 : Int), Name := "Alice", Fortune := "Good luck" }

/-- A world for the session handler: the body decodes to `d` and the processor
creates a session. -/
def sessionWorld (d : sessionCreateRequest) : World :=
  constWorld d (.ok { ID := "cs_test_1", Metadata := [], PaymentIntent := none })
    (.error .notSigned) (.error "") (.error "") (.ok ())

/-- Request data with a name of exactly 300 one-byte characters. -/
def plainData : sessionCreateRequest :=
  { Price := "100", Name := String.mk (List.replicate 300 'a'), Fortune := "" }

/-- A world for the webhook handler: the signature verifies, the event is a
completed checkout whose session is `cs`, and the lookup and the sink answer
as given. -/
def webhookWorld (cs : CheckoutSession) (paymentIntent : Except String PaymentIntent)
    (post : Except String Unit) : World :=
  constWorld aliceData (.error "") (.ok completedEvent) (.ok cs) paymentIntent post

/-! # Theorems -/

/-! ## Decimal rendering read back by `Atoi` -/

theorem digitVal_digitChar (m : Nat) (hm : m < 10) : digitVal (Nat.digitChar m) = some m := by
  interval_cases m <;> decide

theorem digitChar_ne_sign (m : Nat) (hm : m < 10) :
    Nat.digitChar m ≠ '-' ∧ Nat.digitChar m ≠ '+' := by
  interval_cases m <;> decide

/-- The characters `Nat.toDigitsCore` puts in front of the accumulator are
decimal digits that `parseDigits` reads back as `n`. -/
theorem toDigitsCore_parse (fuel : Nat) : ∀ (n : Nat) (acc : List Char), n < fuel →
    ∃ ds : List Char, Nat.toDigitsCore 10 fuel n acc = ds ++ acc ∧
      (∃ m, m < 10 ∧ ds.head? = some (Nat.digitChar m)) ∧
      ∀ rest, parseDigits (ds ++ rest) 0 = parseDigits rest n := by
  induction fuel with
  | zero => intro n acc h; omega
  | succ fuel ih =>
    intro n acc hn
    by_cases h10 : n / 10 = 0
    · have hlt : n < 10 := by omega
      refine ⟨[Nat.digitChar n], ?_, ⟨n, hlt, rfl⟩, ?_⟩
      · simp [Nat.toDigitsCore, h10, Nat.mod_eq_of_lt hlt]
      · intro rest
        simp [parseDigits, digitVal_digitChar n hlt]
    · obtain ⟨ds, hds, hhead, hparse⟩ := ih (n / 10) (Nat.digitChar (n % 10) :: acc) (by omega)
      refine ⟨ds ++ [Nat.digitChar (n % 10)], ?_, ?_, ?_⟩
      · simp [Nat.toDigitsCore, h10, hds]
      · obtain ⟨m, hm, hm2⟩ := hhead
        refine ⟨m, hm, ?_⟩
        cases ds with
        | nil => simp at hm2
        | cons c cs => simpa using hm2
      · intro rest
        have h := hparse (Nat.digitChar (n % 10) :: rest)
        simp only [List.append_assoc, List.singleton_append]
        rw [h]
        simp only [parseDigits, digitVal_digitChar (n % 10) (Nat.mod_lt _ (by omega))]
        congr 1
        omega

/-- The digits of `Nat.repr n`: a non-empty run starting with a digit, which
`parseDigits` reads back as `n`. -/
theorem repr_parse (n : Nat) :
    (∃ m, m < 10 ∧ (Nat.repr n).data.head? = some (Nat.digitChar m)) ∧
      parseDigits (Nat.repr n).data 0 = some n := by
  obtain ⟨ds, hds, hhead, hparse⟩ := toDigitsCore_parse (n + 1) n [] (by omega)
  have hdata : (Nat.repr n).data = ds := by
    simp [Nat.repr, Nat.toDigits, hds, List.asString]
  rw [hdata]
  refine ⟨hhead, ?_⟩
  have := hparse []
  simpa [parseDigits] using this

/-- `Atoi` on a string that starts with a digit and whose digits read as `un`. -/
theorem Atoi_digits (s : String) (m un : Nat) (hm : m < 10)
    (hhead : s.data.head? = some (Nat.digitChar m)) (hparse : parseDigits s.data 0 = some un)
    (hun : un < 2 ^ 63) : Atoi s = .ok (un : Int) := by
  obtain ⟨hne1, hne2⟩ := digitChar_ne_sign m hm
  unfold Atoi
  cases hd : s.data with
  | nil => simp [hd] at hhead
  | cons c cs =>
    rw [hd] at hhead hparse
    simp only [List.head?_cons, Option.some.injEq] at hhead
    subst hhead
    split
    · rename_i heq
      simp only [List.cons.injEq] at heq
      exact absurd heq.1 hne1
    · rename_i heq
      simp only [List.cons.injEq] at heq
      exact absurd heq.1 hne2
    · simp [hparse]
      omega

/-- `Atoi` on a minus sign followed by digits that read as `un`. -/
theorem Atoi_neg_digits (s : String) (ds : List Char) (un : Nat)
    (hs : s.data = '-' :: ds) (hne : ds ≠ [])
    (hparse : parseDigits ds 0 = some un) (hun : un ≤ 2 ^ 63) :
    Atoi s = .ok (-(un : Int)) := by
  unfold Atoi
  rw [hs]
  simp [hparse, hne]
  omega

/-- Reading back the decimal string of an `int`: `Atoi` returns the integer
whenever it lies in the 64-bit range. -/
theorem Atoi_toString (a : Int) (hlo : -(2 : Int) ^ 63 ≤ a) (hhi : a < (2 : Int) ^ 63) :
    Atoi (toString a) = .ok a := by
  cases a with
  | ofNat n =>
    obtain ⟨⟨m, hm, hhead⟩, hparse⟩ := repr_parse n
    have hs : toString (Int.ofNat n) = Nat.repr n := rfl
    rw [hs]
    have hn : n < 2 ^ 63 := by
      have : (n : Int) < 2 ^ 63 := hhi
      exact_mod_cast this
    exact Atoi_digits _ m n hm hhead hparse hn
  | negSucc n =>
    obtain ⟨⟨m, hm, hhead⟩, hparse⟩ := repr_parse (n + 1)
    have hs : toString (Int.negSucc n) = "-" ++ Nat.repr (n + 1) := rfl
    rw [hs]
    have hn : n + 1 ≤ 2 ^ 63 := by
      have h1 : -(2 : Int) ^ 63 ≤ -((n : Int) + 1) := by
        rw [Int.negSucc_eq] at hlo; exact hlo
      have h2 : ((n : Int) + 1) ≤ 2 ^ 63 := by linarith
      exact_mod_cast h2
    have hne : (Nat.repr (n + 1)).data ≠ [] := by
      intro h; rw [h] at hhead; simp at hhead
    have := Atoi_neg_digits ("-" ++ Nat.repr (n + 1)) (Nat.repr (n + 1)).data (n + 1)
      (by simp [String.data_append]) hne hparse hn
    rw [this, Int.negSucc_eq]
    push_cast
    rfl


/-! ## The webhook handler -/

/-- C1: when `webhook.ConstructEvent` fails, for whatever reason `e`, the
handler answers 400 with the payload `error = "Malformed request"`, performs
no effect at all (no payment-intent lookup, no sink call), and does not
panic; the outcome is the same for every failure reason. -/
theorem webhook_signature_failure (config : configStructure) (world : World) (req : Request)
    (e : WebhookError) (hsize : req.Body.length ≤ 65536)
    (hsig : world.constructEvent req.Body (headerGet req.Header "Stripe-Signature")
      config.KeyWebhook = .error e) :
    (endpointWebhookCallback config world req).response
        = some (400, [Payload.errorJSON { Error := "Malformed request" }]) ∧
      (endpointWebhookCallback config world req).effects = [] ∧
      lookups (endpointWebhookCallback config world req).effects = [] ∧
      sinkCalls (endpointWebhookCallback config world req).effects = [] := by
  have hread : readAllMax req.Body 65536 = .ok req.Body := by
    simp [readAllMax, Nat.not_lt.mpr hsize]
  simp [endpointWebhookCallback, hread, hsig, Outcome.response, writeError,
    ResponseWriter.WriteHeader, ResponseWriter.HeaderSet, ResponseWriter.Write,
    ResponseWriter.finalStatus, lookups, sinkCalls]

/-- C1 at a request with a stale timestamp. -/
theorem webhook_signature_failure_witness :
    (endpointWebhookCallback sampleConfig
        (constWorld aliceData (.error "") (.error .tooOld) (.error "") (.error "") (.ok ()))
        sampleRequest).response
        = some (400, [Payload.errorJSON { Error := "Malformed request" }]) ∧
      (endpointWebhookCallback sampleConfig
        (constWorld aliceData (.error "") (.error .tooOld) (.error "") (.error "") (.ok ()))
        sampleRequest).effects = [] ∧
      lookups (endpointWebhookCallback sampleConfig
        (constWorld aliceData (.error "") (.error .tooOld) (.error "") (.error "") (.ok ()))
        sampleRequest).effects = [] ∧
      sinkCalls (endpointWebhookCallback sampleConfig
        (constWorld aliceData (.error "") (.error .tooOld) (.error "") (.error "") (.ok ()))
        sampleRequest).effects = [] :=
  webhook_signature_failure sampleConfig _ sampleRequest .tooOld (by decide) rfl

/-- C6: a verified event that is not of type `checkout.session.completed`, or
is of that type with session metadata lacking `name` or lacking `fortune`,
causes no effect at all (no sink call, no payment-intent lookup) and the
response is 200 with an empty body. -/
theorem webhook_ignores_event (config : configStructure) (world : World) (req : Request)
    (event : Event) (hver : Verified config world req event)
    (h : event.Type_ ≠ "checkout.session.completed" ∨
      ∃ cs, Completed world event cs ∧
        (cs.Metadata.lookup "name" = none ∨ cs.Metadata.lookup "fortune" = none)) :
    sinkCalls (endpointWebhookCallback config world req).effects = [] ∧
      lookups (endpointWebhookCallback config world req).effects = [] ∧
      (endpointWebhookCallback config world req).effects = [] ∧
      (endpointWebhookCallback config world req).response = some (200, []) := by
  obtain ⟨hsize, hsig⟩ := hver
  have hread : readAllMax req.Body 65536 = .ok req.Body := by
    simp [readAllMax, Nat.not_lt.mpr hsize]
  have key : endpointWebhookCallback config world req = ⟨{}, [], false⟩ := by
    rcases h with h | ⟨cs, ⟨hty, hcs⟩, hmeta⟩
    · simp [endpointWebhookCallback, hread, hsig, h]
    · rcases hmeta with hm | hm
      · simp [endpointWebhookCallback, hread, hsig, hty, hcs, hm]
      · cases hn : cs.Metadata.lookup "name" <;>
          simp [endpointWebhookCallback, hread, hsig, hty, hcs, hm, hn]
  rw [key]
  simp [sinkCalls, lookups, Outcome.response, ResponseWriter.finalStatus]

/-- C6 at a completed session whose metadata has a name and no fortune. -/
theorem webhook_ignores_event_witness :
    sinkCalls (endpointWebhookCallback sampleConfig
        (constWorld aliceData (.error "") (.ok completedEvent)
          (.ok { ID := "cs_2", Metadata := [("name", "Alice")], PaymentIntent := none })
          (.error "") (.ok ()))
        sampleRequest).effects = [] ∧
      lookups (endpointWebhookCallback sampleConfig
        (constWorld aliceData (.error "") (.ok completedEvent)
          (.ok { ID := "cs_2", Metadata := [("name", "Alice")], PaymentIntent := none })
          (.error "") (.ok ()))
        sampleRequest).effects = [] ∧
      (endpointWebhookCallback sampleConfig
        (constWorld aliceData (.error "") (.ok completedEvent)
          (.ok { ID := "cs_2", Metadata := [("name", "Alice")], PaymentIntent := none })
          (.error "") (.ok ()))
        sampleRequest).effects = [] ∧
      (endpointWebhookCallback sampleConfig
        (constWorld aliceData (.error "") (.ok completedEvent)
          (.ok { ID := "cs_2", Metadata := [("name", "Alice")], PaymentIntent := none })
          (.error "") (.ok ()))
        sampleRequest).response = some (200, []) :=
  webhook_ignores_event sampleConfig _ sampleRequest completedEvent ⟨by decide, rfl⟩
    (Or.inr ⟨_, ⟨rfl, rfl⟩, Or.inr (by decide)⟩)

/-- C7: for a verified completed event whose session metadata has `name` and
`fortune` and which carries a payment-intent reference, when the lookup of
the payment intent fails the handler makes exactly one sink call; its message
has one embed, titled "New Request", of colour 0x00cc00, with exactly the
fields Name and Fortune in that order and no Price field. -/
theorem webhook_lookup_failure (config : configStructure) (world : World) (req : Request)
    (event : Event) (cs : CheckoutSession) (pi : PaymentIntent) (n f err : String)
    (hver : Verified config world req event) (hcomp : Completed world event cs)
    (hname : cs.Metadata.lookup "name" = some n) (hfortune : cs.Metadata.lookup "fortune" = some f)
    (hpi : cs.PaymentIntent = some pi) (hlookup : world.paymentIntentGet pi.ID = .error err) :
    sinkCalls (endpointWebhookCallback config world req).effects
      = [{ Embeds := [{ Title := "New Request", Color := 0x00cc00,
                        Fields := [{ Name := "Name", Value := n },
                                   { Name := "Fortune", Value := f }] }] }] := by
  obtain ⟨hsize, hsig⟩ := hver
  obtain ⟨hty, hcs⟩ := hcomp
  have hread : readAllMax req.Body 65536 = .ok req.Body := by
    simp [readAllMax, Nat.not_lt.mpr hsize]
  simp only [endpointWebhookCallback, hread, hsig, hty, hcs, hname, hfortune, hpi, hlookup,
    ne_eq, not_true_eq_false, if_false]
  split <;> simp [sinkCalls, notification]

/-- C7 at the sample session, with the processor refusing the lookup. -/
theorem webhook_lookup_failure_witness :
    sinkCalls (endpointWebhookCallback sampleConfig
        (constWorld aliceData (.error "") (.ok completedEvent)
          (.ok (aliceSession (some alicePayment))) (.error "unreachable") (.ok ()))
        sampleRequest).effects
      = [{ Embeds := [{ Title := "New Request", Color := 0x00cc00,
                        Fields := [{ Name := "Name", Value := "Alice" },
                                   { Name := "Fortune", Value := "Good luck" }] }] }] :=
  webhook_lookup_failure sampleConfig _ sampleRequest completedEvent
    (aliceSession (some alicePayment)) alicePayment "Alice" "Good luck" "unreachable"
    ⟨by decide, rfl⟩ ⟨rfl, rfl⟩ (by decide) (by decide) rfl rfl


/-! ## The session handler -/

/-- A validated request reaches `session.New` with the parameters built
from its amount and data; the rest of the run depends on the answer. -/
theorem sessionCreate_validated (config : configStructure) (world : World) (req : Request)
    (a : Int) (d : sessionCreateRequest) (h : Validated world req a d) :
    endpointSessionCreate config world req =
      match world.sessionNew (sessionParams config a d) with
      | .error err =>
        ⟨{}, [.sessionNew (sessionParams config a d),
              .log ("Failed creating session: " ++ err ++ "\n")], false⟩
      | .ok session =>
        ⟨(((({} : ResponseWriter).WriteHeader 200).HeaderSet "Content-Type"
            "application/json").Write (Payload.sessionJSON { SessionID := session.ID })),
         [.sessionNew (sessionParams config a d),
          .log ("Created new checkout session for " ++ req.RemoteAddr ++ "\n")], false⟩ := by
  have hread : readAllMax req.Body 65535 = .ok req.Body := by
    simp [readAllMax, Nat.not_lt.mpr h.size]
  have h1 : ¬ a < 100 := not_lt.mpr h.amount
  have h2 : ¬ len d.Name > 300 := Nat.not_lt.mpr h.name
  have h3 : ¬ len d.Fortune > 3000 := Nat.not_lt.mpr h.fortune
  simp only [endpointSessionCreate, h.method, hread, h.parsed, h.price, h1, h2, h3, ne_eq,
    not_true_eq_false, if_false]

/-- The session handler before the price check: the request decodes to `d`
and the run depends on `Atoi d.Price` and the three bounds only. -/
theorem sessionCreate_parsed (config : configStructure) (world : World) (req : Request)
    (d : sessionCreateRequest) (hmethod : req.Method = "POST")
    (hsize : req.Body.length ≤ 65535) (hparsed : world.unmarshalRequest req.Body = .ok d) :
    endpointSessionCreate config world req =
      match Atoi d.Price with
      | .error _ => ⟨writeError {} 400 "Malformed request", [], false⟩
      | .ok price =>
        if price < 100 then ⟨writeError {} 400 "Price too low", [], false⟩
        else if len d.Name > 300 then ⟨writeError {} 400 "Name too long", [], false⟩
        else if len d.Fortune > 3000 then ⟨writeError {} 400 "Fortune too long", [], false⟩
        else
          match world.sessionNew (sessionParams config price d) with
          | .error err =>
            ⟨{}, [.sessionNew (sessionParams config price d),
                  .log ("Failed creating session: " ++ err ++ "\n")], false⟩
          | .ok session =>
            ⟨(((({} : ResponseWriter).WriteHeader 200).HeaderSet "Content-Type"
                "application/json").Write (Payload.sessionJSON { SessionID := session.ID })),
             [.sessionNew (sessionParams config price d),
              .log ("Created new checkout session for " ++ req.RemoteAddr ++ "\n")], false⟩ := by
  have hread : readAllMax req.Body 65535 = .ok req.Body := by
    simp [readAllMax, Nat.not_lt.mpr hsize]
  simp only [endpointSessionCreate, hmethod, hread, hparsed, ne_eq, not_true_eq_false, if_false]

/-- The response of `writeError` on a fresh writer. -/
theorem writeError_response (statusCode : Nat) (message : String) (effects : List Effect) :
    (Outcome.mk (writeError {} statusCode message) effects false).response
      = some (statusCode, [Payload.errorJSON { Error := message }]) := by
  simp [Outcome.response, writeError, ResponseWriter.WriteHeader, ResponseWriter.HeaderSet,
    ResponseWriter.Write, ResponseWriter.finalStatus]

/-- C9: for a validated request with amount `a`, name `n` and fortune `f`,
`session.New` is called once, with one line item of quantity 1, currency USD
and unit amount `a`, in payment mode, with metadata exactly name = `n` and
fortune = `f`, the success URL made of the host domain and
`/success?session_id=` with the session-id placeholder, and the cancel URL
made of the host domain and `/cancel`. -/
theorem session_params_of_validated (config : configStructure) (world : World) (req : Request)
    (a : Int) (d : sessionCreateRequest) (h : Validated world req a d) :
    sessionCalls (endpointSessionCreate config world req).effects =
      [{ PaymentMethodTypes := ["card"]
         LineItems :=
           [{ PriceData :=
                { Currency := CurrencyUSD
                  ProductData := { Name := "Fortune Telling" }
                  UnitAmount := a }
              Quantity := 1 }]
         Mode := CheckoutSessionModePayment
         SuccessURL := config.HostDomain ++ "/success?session_id=\x7bCHECKOUT_SESSION_ID\x7d"
         CancelURL := config.HostDomain ++ "/cancel"
         Metadata := [("name", d.Name), ("fortune", d.Fortune)] }] := by
  rw [sessionCreate_validated config world req a d h]
  have hp : sessionParams config a d =
      { PaymentMethodTypes := ["card"]
        LineItems :=
          [{ PriceData :=
               { Currency := CurrencyUSD
                 ProductData := { Name := "Fortune Telling" }
                 UnitAmount := a }
             Quantity := 1 }]
        Mode := CheckoutSessionModePayment
        SuccessURL := config.HostDomain ++ "/success?session_id=\x7bCHECKOUT_SESSION_ID\x7d"
        CancelURL := config.HostDomain ++ "/cancel"
        Metadata := [("name", d.Name), ("fortune", d.Fortune)] } := by
    simp [sessionParams, CheckoutSessionParams.AddMetadata, mapSet]
  rw [hp]
  split <;> simp [sessionCalls]

/-- The sample request is validated in every world that decodes it to `aliceData`. -/
theorem alice_validated (session : Except String CheckoutSession)
    (event : Except WebhookError Event) (cs : Except String CheckoutSession)
    (paymentIntent : Except String PaymentIntent) (post : Except String Unit) :
    Validated (constWorld aliceData session event cs paymentIntent post) sampleRequest 500
      aliceData :=
  { method := rfl
    size := by decide
    parsed := rfl
    price := rfl
    amount := by decide
    name := by decide
    fortune := by decide }

/-- C9 at the request of the end-to-end scenario. -/
theorem session_params_of_validated_witness :
    sessionCalls (endpointSessionCreate sampleConfig
        (constWorld aliceData (.ok (aliceSession none)) (.error .notSigned) (.error "")
          (.error "") (.ok ()))
        sampleRequest).effects =
      [{ PaymentMethodTypes := ["card"]
         LineItems :=
           [{ PriceData :=
                { Currency := CurrencyUSD
                  ProductData := { Name := "Fortune Telling" }
                  UnitAmount := 500 }
              Quantity := 1 }]
         Mode := CheckoutSessionModePayment
         SuccessURL := "https://donate.example" ++
           "/success?session_id=\x7bCHECKOUT_SESSION_ID\x7d"
         CancelURL := "https://donate.example" ++ "/cancel"
         Metadata := [("name", "Alice"), ("fortune", "Good luck")] }] :=
  session_params_of_validated sampleConfig _ sampleRequest 500 aliceData
    (alice_validated _ _ _ _ _)

/-- C4, as stated, fails: the sample request is validated, the processor
refuses to create the session, and the client receives status 200 with an
empty body, which is not a 5xx status. -/
theorem session_failure_is_not_5xx :
    Validated (constWorld aliceData (.error "upstream") (.error .notSigned) (.error "")
        (.error "") (.ok ())) sampleRequest 500 aliceData ∧
      (constWorld aliceData (.error "upstream") (.error .notSigned) (.error "")
        (.error "") (.ok ())).sessionNew (sessionParams sampleConfig 500 aliceData)
        = .error "upstream" ∧
      (endpointSessionCreate sampleConfig
        (constWorld aliceData (.error "upstream") (.error .notSigned) (.error "")
          (.error "") (.ok ()))
        sampleRequest).response = some (200, []) ∧
      ¬ (500 ≤ (endpointSessionCreate sampleConfig
        (constWorld aliceData (.error "upstream") (.error .notSigned) (.error "")
          (.error "") (.ok ()))
        sampleRequest).w.finalStatus) := by
  refine ⟨alice_validated _ _ _ _ _, rfl, ?_, ?_⟩ <;> decide

/-- C4, amended: for a validated request, when `session.New` fails the
handler writes nothing, so the client receives the default status 200 with
an empty body (no session id); the effects are the call itself and one log
record. -/
theorem session_failure_writes_nothing (config : configStructure) (world : World)
    (req : Request) (a : Int) (d : sessionCreateRequest) (err : String)
    (h : Validated world req a d)
    (hfail : world.sessionNew (sessionParams config a d) = .error err) :
    (endpointSessionCreate config world req).w = {} ∧
      (endpointSessionCreate config world req).response = some (200, []) ∧
      (endpointSessionCreate config world req).effects =
        [.sessionNew (sessionParams config a d),
         .log ("Failed creating session: " ++ err ++ "\n")] ∧
      logRecords (endpointSessionCreate config world req).effects =
        ["Failed creating session: " ++ err ++ "\n"] := by
  rw [sessionCreate_validated config world req a d h, hfail]
  simp [Outcome.response, ResponseWriter.finalStatus, logRecords]

/-- C4, amended, at the sample request with a failing processor. -/
theorem session_failure_writes_nothing_witness :
    (endpointSessionCreate sampleConfig
        (constWorld aliceData (.error "upstream") (.error .notSigned) (.error "")
          (.error "") (.ok ()))
        sampleRequest).w = {} ∧
      (endpointSessionCreate sampleConfig
        (constWorld aliceData (.error "upstream") (.error .notSigned) (.error "")
          (.error "") (.ok ()))
        sampleRequest).response = some (200, []) ∧
      (endpointSessionCreate sampleConfig
        (constWorld aliceData (.error "upstream") (.error .notSigned) (.error "")
          (.error "") (.ok ()))
        sampleRequest).effects =
        [.sessionNew (sessionParams sampleConfig 500 aliceData),
         .log ("Failed creating session: " ++ "upstream" ++ "\n")] ∧
      logRecords (endpointSessionCreate sampleConfig
        (constWorld aliceData (.error "upstream") (.error .notSigned) (.error "")
          (.error "") (.ok ()))
        sampleRequest).effects =
        ["Failed creating session: " ++ "upstream" ++ "\n"] :=
  session_failure_writes_nothing sampleConfig _ sampleRequest 500 aliceData "upstream"
    (alice_validated _ _ _ _ _) rfl


/-! ## Price and length checks -/

/-- `Atoi` on a minus sign followed by digits that read as more than `2^63`. -/
theorem Atoi_neg_digits_range (s : String) (ds : List Char) (un : Nat)
    (hs : s.data = '-' :: ds) (hne : ds ≠ [])
    (hparse : parseDigits ds 0 = some un) (hun : 2 ^ 63 < un) :
    Atoi s = .error .ErrRange := by
  unfold Atoi
  rw [hs]
  simp [hparse, hne]
  omega

/-- The decimal string of an integer below `-2^63` is out of range for `Atoi`. -/
theorem Atoi_toString_below (a : Int) (h : a < -(2 : Int) ^ 63) :
    Atoi (toString a) = .error .ErrRange := by
  cases a with
  | ofNat n =>
    have : (0 : Int) ≤ Int.ofNat n := Int.ofNat_nonneg n
    have h2 : -(2 : Int) ^ 63 < 0 := by norm_num
    omega
  | negSucc n =>
    obtain ⟨⟨m, hm, hhead⟩, hparse⟩ := repr_parse (n + 1)
    have hs : toString (Int.negSucc n) = "-" ++ Nat.repr (n + 1) := rfl
    rw [hs]
    have hn : 2 ^ 63 < n + 1 := by
      rw [Int.negSucc_eq] at h
      have h2 : (2 : Int) ^ 63 < (n : Int) + 1 := by linarith
      exact_mod_cast h2
    have hne : (Nat.repr (n + 1)).data ≠ [] := by
      intro h; rw [h] at hhead; simp at hhead
    exact Atoi_neg_digits_range ("-" ++ Nat.repr (n + 1)) (Nat.repr (n + 1)).data (n + 1)
      (by simp [String.data_append]) hne hparse hn

/-- C2, as stated, fails: the price is the decimal string of the integer
`-9223372036854775809`, which is below 100, and the answer is 400 with the
error "Malformed request", not "Price too low". -/
theorem price_below_int_range_is_malformed :
    hugeNegativeData.Price = "-9223372036854775809" ∧
      (-9223372036854775809 : Int) < 100 ∧
      (endpointSessionCreate sampleConfig (sessionWorld hugeNegativeData) sampleRequest).response
        = some (400, [Payload.errorJSON { Error := "Malformed request" }]) ∧
      (endpointSessionCreate sampleConfig (sessionWorld hugeNegativeData) sampleRequest).response
        ≠ some (400, [Payload.errorJSON { Error := "Price too low" }]) := by
  decide

/-- C2, amended: for a `POST /session` request whose body decodes and whose
price is the decimal string of the integer `a`: when `-2^63 ≤ a < 100` the
answer is 400 with error "Price too low" and `session.New` is not called;
when `a < -2^63` the answer is 400 with error "Malformed request" and
`session.New` is not called; when `a = 100` and name and fortune are within
their limits, `session.New` is called once, with unit amount 100. -/
theorem session_price_boundary (config : configStructure) (world : World) (req : Request)
    (a : Int) (d : sessionCreateRequest) (hmethod : req.Method = "POST")
    (hsize : req.Body.length ≤ 65535) (hparsed : world.unmarshalRequest req.Body = .ok d)
    (hprice : d.Price = toString a) :
    (-(2 : Int) ^ 63 ≤ a → a < 100 →
        (endpointSessionCreate config world req).response
          = some (400, [Payload.errorJSON { Error := "Price too low" }]) ∧
        sessionCalls (endpointSessionCreate config world req).effects = []) ∧
      (a < -(2 : Int) ^ 63 →
        (endpointSessionCreate config world req).response
          = some (400, [Payload.errorJSON { Error := "Malformed request" }]) ∧
        sessionCalls (endpointSessionCreate config world req).effects = []) ∧
      (a = 100 → len d.Name ≤ 300 → len d.Fortune ≤ 3000 →
        sessionCalls (endpointSessionCreate config world req).effects
          = [sessionParams config 100 d] ∧
        (sessionParams config 100 d).LineItems.map (fun item => item.PriceData.UnitAmount)
          = [100]) := by
  rw [sessionCreate_parsed config world req d hmethod hsize hparsed, hprice]
  refine ⟨?_, ?_, ?_⟩
  · intro hlo hhi
    rw [Atoi_toString a hlo (by linarith)]
    simp only [hhi, if_true]
    exact ⟨writeError_response _ _ _, rfl⟩
  · intro hlo
    rw [Atoi_toString_below a hlo]
    exact ⟨writeError_response _ _ _, rfl⟩
  · intro ha hn hf
    subst ha
    rw [Atoi_toString 100 (by norm_num) (by norm_num)]
    have h2 : ¬ len d.Name > 300 := Nat.not_lt.mpr hn
    have h3 : ¬ len d.Fortune > 3000 := Nat.not_lt.mpr hf
    simp only [h2, h3, if_false, lt_self_iff_false]
    refine ⟨?_, ?_⟩
    · split <;> simp [sessionCalls]
    · simp [sessionParams, CheckoutSessionParams.AddMetadata]

/-- C2, amended, at the prices "99" and "100". -/
theorem session_price_boundary_witness :
    ((endpointSessionCreate sampleConfig
          (sessionWorld { Price := "99", Name := "Alice", Fortune := "Good luck" })
          sampleRequest).response
        = some (400, [Payload.errorJSON { Error := "Price too low" }]) ∧
      sessionCalls (endpointSessionCreate sampleConfig
          (sessionWorld { Price := "99", Name := "Alice", Fortune := "Good luck" })
          sampleRequest).effects = []) ∧
    (sessionCalls (endpointSessionCreate sampleConfig
          (sessionWorld { Price := "100", Name := "Alice", Fortune := "Good luck" })
          sampleRequest).effects
        = [sessionParams sampleConfig 100
            { Price := "100", Name := "Alice", Fortune := "Good luck" }] ∧
      (sessionParams sampleConfig 100
          { Price := "100", Name := "Alice", Fortune := "Good luck" }).LineItems.map
          (fun item => item.PriceData.UnitAmount) = [100]) :=
  ⟨(session_price_boundary sampleConfig
      (sessionWorld { Price := "99", Name := "Alice", Fortune := "Good luck" })
      sampleRequest 99 _ rfl (by decide) rfl rfl).1 (by decide) (by decide),
   (session_price_boundary sampleConfig
      (sessionWorld { Price := "100", Name := "Alice", Fortune := "Good luck" })
      sampleRequest 100 _ rfl (by decide) rfl rfl).2.2 rfl (by decide) (by decide)⟩


/-- The byte length of a string of `k` copies of one character. -/
theorem len_replicate (k : Nat) (c : Char) :
    len (String.mk (List.replicate k c)) = k * c.utf8Size := by
  induction k with
  | zero => simp [len, String.utf8ByteSize, String.utf8ByteSize.go]
  | succ k ih =>
    simp only [len, String.utf8ByteSize, List.replicate_succ, String.utf8ByteSize.go] at ih ⊢
    rw [ih]
    ring

/-- A string has at least as many bytes as characters. -/
theorem length_le_len (s : String) : s.length ≤ len s := by
  obtain ⟨cs⟩ := s
  simp only [len, String.utf8ByteSize, String.length]
  induction cs with
  | nil => simp [String.utf8ByteSize.go]
  | cons c cs ih =>
    simp only [String.utf8ByteSize.go, List.length_cons]
    have := Char.utf8Size_pos c
    omega

/-- C3, as stated, fails: a request with the valid amount 100 and a name of
exactly 300 characters, each of them the two-byte character U+00E9, is
answered 400 "Name too long" and `session.New` is not called. -/
theorem accented_name_of_300_characters_rejected :
    Atoi accentedData.Price = .ok 100 ∧
      accentedData.Name.length = 300 ∧
      accentedData.Fortune.length ≤ 3000 ∧
      (endpointSessionCreate sampleConfig (sessionWorld accentedData) sampleRequest).response
        = some (400, [Payload.errorJSON { Error := "Name too long" }]) ∧
      sessionCalls
        (endpointSessionCreate sampleConfig (sessionWorld accentedData) sampleRequest).effects
        = [] := by
  have hlen : len accentedData.Name = 600 := by
    have h := len_replicate 300 'é'
    have h2 : ('é' : Char).utf8Size = 2 := by decide
    rw [h2] at h
    exact h
  have hrun : endpointSessionCreate sampleConfig (sessionWorld accentedData) sampleRequest
      = ⟨writeError {} 400 "Name too long", [], false⟩ := by
    rw [sessionCreate_parsed sampleConfig (sessionWorld accentedData) sampleRequest accentedData
      rfl (by decide) rfl]
    have hp : Atoi accentedData.Price = .ok 100 := rfl
    rw [hp]
    simp [hlen]
  refine ⟨rfl, ?_, by decide, ?_, ?_⟩
  · show (List.replicate 300 'é').length = 300
    exact List.length_replicate 300 'é'
  · rw [hrun]; exact writeError_response _ _ _
  · rw [hrun]; rfl

/-- C3, amended: for a `POST /session` request with a valid amount (at least
100), with lengths counted in bytes of the UTF-8 encoding: when the name has
more than 300 bytes the answer is 400 "Name too long", when the name has at
most 300 bytes and the fortune more than 3000 bytes the answer is 400
"Fortune too long", and in both cases `session.New` is not called; when the
name has at most 300 bytes and the fortune at most 3000 bytes, exactly 300
and 3000 included, `session.New` is called once.  A name of more than 300
characters or a fortune of more than 3000 characters has more bytes than the
limit, so it is rejected with status 400. -/
theorem session_length_limits (config : configStructure) (world : World) (req : Request)
    (a : Int) (d : sessionCreateRequest) (hmethod : req.Method = "POST")
    (hsize : req.Body.length ≤ 65535) (hparsed : world.unmarshalRequest req.Body = .ok d)
    (hprice : Atoi d.Price = .ok a) (hamount : 100 ≤ a) :
    (300 < len d.Name →
        (endpointSessionCreate config world req).response
          = some (400, [Payload.errorJSON { Error := "Name too long" }]) ∧
        sessionCalls (endpointSessionCreate config world req).effects = []) ∧
      (len d.Name ≤ 300 → 3000 < len d.Fortune →
        (endpointSessionCreate config world req).response
          = some (400, [Payload.errorJSON { Error := "Fortune too long" }]) ∧
        sessionCalls (endpointSessionCreate config world req).effects = []) ∧
      (len d.Name ≤ 300 → len d.Fortune ≤ 3000 →
        sessionCalls (endpointSessionCreate config world req).effects
          = [sessionParams config a d]) ∧
      (300 < d.Name.length ∨ 3000 < d.Fortune.length →
        (∃ message, (endpointSessionCreate config world req).response
          = some (400, [Payload.errorJSON { Error := message }])) ∧
        sessionCalls (endpointSessionCreate config world req).effects = []) := by
  rw [sessionCreate_parsed config world req d hmethod hsize hparsed, hprice]
  have h1 : ¬ a < 100 := not_lt.mpr hamount
  simp only [h1, if_false]
  have hname : 300 < len d.Name →
      (if len d.Name > 300 then
          (⟨writeError {} 400 "Name too long", [], false⟩ : Outcome)
        else if len d.Fortune > 3000 then ⟨writeError {} 400 "Fortune too long", [], false⟩
        else
          match world.sessionNew (sessionParams config a d) with
          | .error err =>
            ⟨{}, [.sessionNew (sessionParams config a d),
                  .log ("Failed creating session: " ++ err ++ "\n")], false⟩
          | .ok session =>
            ⟨(((({} : ResponseWriter).WriteHeader 200).HeaderSet "Content-Type"
                "application/json").Write (Payload.sessionJSON { SessionID := session.ID })),
             [.sessionNew (sessionParams config a d),
              .log ("Created new checkout session for " ++ req.RemoteAddr ++ "\n")], false⟩)
        = ⟨writeError {} 400 "Name too long", [], false⟩ := by
    intro h
    simp only [gt_iff_lt, h, if_true]
  have hfortune : len d.Name ≤ 300 → 3000 < len d.Fortune →
      (if len d.Name > 300 then
          (⟨writeError {} 400 "Name too long", [], false⟩ : Outcome)
        else if len d.Fortune > 3000 then ⟨writeError {} 400 "Fortune too long", [], false⟩
        else
          match world.sessionNew (sessionParams config a d) with
          | .error err =>
            ⟨{}, [.sessionNew (sessionParams config a d),
                  .log ("Failed creating session: " ++ err ++ "\n")], false⟩
          | .ok session =>
            ⟨(((({} : ResponseWriter).WriteHeader 200).HeaderSet "Content-Type"
                "application/json").Write (Payload.sessionJSON { SessionID := session.ID })),
             [.sessionNew (sessionParams config a d),
              .log ("Created new checkout session for " ++ req.RemoteAddr ++ "\n")], false⟩)
        = ⟨writeError {} 400 "Fortune too long", [], false⟩ := by
    intro h h2
    have h3 : ¬ len d.Name > 300 := Nat.not_lt.mpr h
    simp only [gt_iff_lt, h2, if_true, h3, if_false]
  refine ⟨?_, ?_, ?_, ?_⟩
  · intro h
    rw [hname h]
    exact ⟨writeError_response _ _ _, rfl⟩
  · intro h h2
    rw [hfortune h h2]
    exact ⟨writeError_response _ _ _, rfl⟩
  · intro hn hf
    have h2 : ¬ len d.Name > 300 := Nat.not_lt.mpr hn
    have h3 : ¬ len d.Fortune > 3000 := Nat.not_lt.mpr hf
    simp only [h2, h3, if_false]
    split <;> simp [sessionCalls]
  · intro h
    by_cases hn : 300 < len d.Name
    · rw [hname hn]
      exact ⟨⟨_, writeError_response _ _ _⟩, rfl⟩
    · have hf : 3000 < len d.Fortune := by
        rcases h with h | h
        · exact absurd (lt_of_lt_of_le h (length_le_len _)) hn
        · exact lt_of_lt_of_le h (length_le_len _)
      rw [hfortune (Nat.not_lt.mp hn) hf]
      exact ⟨⟨_, writeError_response _ _ _⟩, rfl⟩


/-- C3, amended, at a name of exactly 300 one-byte characters and at the
name of 300 two-byte characters. -/
theorem session_length_limits_witness :
    sessionCalls
        (endpointSessionCreate sampleConfig (sessionWorld plainData) sampleRequest).effects
        = [sessionParams sampleConfig 100 plainData] ∧
      ((endpointSessionCreate sampleConfig (sessionWorld accentedData) sampleRequest).response
          = some (400, [Payload.errorJSON { Error := "Name too long" }]) ∧
        sessionCalls
          (endpointSessionCreate sampleConfig (sessionWorld accentedData) sampleRequest).effects
          = []) :=
  ⟨(session_length_limits sampleConfig (sessionWorld plainData) sampleRequest 100 plainData
      rfl (by decide) rfl rfl (by decide)).2.2.1
      (le_of_eq ((len_replicate 300 'a').trans
        (show 300 * ('a' : Char).utf8Size = 300 by decide))) (by decide),
   (session_length_limits sampleConfig (sessionWorld accentedData) sampleRequest 100
      accentedData rfl (by decide) rfl rfl (by decide)).1
      (lt_of_lt_of_eq (show 300 < 600 by decide)
        ((len_replicate 300 'é').trans (show 300 * ('é' : Char).utf8Size = 600 by decide)).symm)⟩


/-! ## Acknowledgement and the missing payment intent -/

/-- A verified event is acknowledged with status 200 and an empty body
whenever the handler does not panic. -/
theorem webhook_acknowledges (config : configStructure) (world : World) (req : Request)
    (event : Event) (hver : Verified config world req event)
    (hpanic : (endpointWebhookCallback config world req).panicked = false) :
    (endpointWebhookCallback config world req).response = some (200, []) := by
  obtain ⟨hsize, hsig⟩ := hver
  have hread : readAllMax req.Body 65536 = .ok req.Body := by
    simp [readAllMax, Nat.not_lt.mpr hsize]
  revert hpanic
  simp only [endpointWebhookCallback, hread, hsig]
  split
  · intro _; simp [Outcome.response, ResponseWriter.finalStatus]
  · split
    · intro _; simp [Outcome.response, ResponseWriter.finalStatus]
    · split
      · intro _; simp [Outcome.response, ResponseWriter.finalStatus]
      · split
        · intro _; simp [Outcome.response, ResponseWriter.finalStatus]
        · split
          · intro h; simp at h
          · split <;> intro _ <;>
              simp [Outcome.response, ResponseWriter.finalStatus, ResponseWriter.WriteHeader]

/-- The handler panics on a verified event exactly when the event is a
completed checkout whose session has both metadata entries and no payment
intent. -/
theorem webhook_panics_iff (config : configStructure) (world : World) (req : Request)
    (event : Event) (hver : Verified config world req event) :
    (endpointWebhookCallback config world req).panicked = true ↔
      ∃ cs n f, Completed world event cs ∧ cs.Metadata.lookup "name" = some n ∧
        cs.Metadata.lookup "fortune" = some f ∧ cs.PaymentIntent = none := by
  obtain ⟨hsize, hsig⟩ := hver
  have hread : readAllMax req.Body 65536 = .ok req.Body := by
    simp [readAllMax, Nat.not_lt.mpr hsize]
  simp only [endpointWebhookCallback, hread, hsig, Completed]
  by_cases hty : event.Type_ = "checkout.session.completed"
  · simp only [hty, ne_eq, not_true_eq_false, if_false, true_and]
    cases hcs : world.unmarshalSession event.DataRaw with
    | error err =>
      simp only [Bool.false_eq_true, false_iff]
      rintro ⟨cs, n, f, h, _⟩
      simp at h
    | ok cs =>
      cases hn : cs.Metadata.lookup "name" with
      | none =>
        simp only [hn, Bool.false_eq_true, false_iff]
        rintro ⟨cs2, n, f, h, h2, _⟩
        simp only [Except.ok.injEq] at h
        subst h
        rw [hn] at h2
        simp at h2
      | some n =>
        cases hf : cs.Metadata.lookup "fortune" with
        | none =>
          simp only [hn, hf, Bool.false_eq_true, false_iff]
          rintro ⟨cs2, n2, f, h, _, h3, _⟩
          simp only [Except.ok.injEq] at h
          subst h
          rw [hf] at h3
          simp at h3
        | some f =>
          cases hp : cs.PaymentIntent with
          | none =>
            simp only [hn, hf, hp, true_iff]
            exact ⟨cs, n, f, rfl, hn, hf, hp⟩
          | some pi =>
            simp only [hn, hf, hp]
            split <;> simp [hp]
  · simp only [hty, ne_eq, not_false_eq_true, if_true, Bool.false_eq_true, false_and,
      exists_false, exists_const]

/-- C5: the handler run on a verified `checkout.session.completed` event
whose session has the metadata `name` and `fortune` and no payment-intent
reference: the handler panics, the client receives no response (no status
200), and no sink call is made. -/
theorem webhook_panics_without_payment_intent :
    Verified sampleConfig (webhookWorld (aliceSession none) (.ok alicePayment) (.ok ()))
        sampleRequest completedEvent ∧
      (endpointWebhookCallback sampleConfig
        (webhookWorld (aliceSession none) (.ok alicePayment) (.ok ()))
        sampleRequest).panicked = true ∧
      (endpointWebhookCallback sampleConfig
        (webhookWorld (aliceSession none) (.ok alicePayment) (.ok ()))
        sampleRequest).response = none ∧
      (endpointWebhookCallback sampleConfig
        (webhookWorld (aliceSession none) (.ok alicePayment) (.ok ()))
        sampleRequest).effects = [] := by
  refine ⟨⟨by decide, rfl⟩, ?_, ?_, ?_⟩ <;> decide

/-! ## Round trip of the metadata -/

/-- The metadata of the parameters sent to the processor: `name` and
`fortune` of the request, and nothing else. -/
theorem sessionParams_metadata (config : configStructure) (a : Int) (d : sessionCreateRequest) :
    (sessionParams config a d).Metadata = [("name", d.Name), ("fortune", d.Fortune)] := by
  simp [sessionParams, CheckoutSessionParams.AddMetadata, mapSet]

/-- The notification for a complete event with a payment-intent reference:
one sink call, whose fields start with Name and Fortune, carrying the values
of the session metadata. -/
theorem webhook_notifies (config : configStructure) (world : World) (req : Request)
    (event : Event) (cs : CheckoutSession) (pi : PaymentIntent) (n f : String)
    (hver : Verified config world req event) (hcomp : Completed world event cs)
    (hname : cs.Metadata.lookup "name" = some n) (hfortune : cs.Metadata.lookup "fortune" = some f)
    (hpi : cs.PaymentIntent = some pi) :
    sinkCalls (endpointWebhookCallback config world req).effects
      = [notification n f
          (match world.paymentIntentGet pi.ID with
           | .ok paymentIntent => some paymentIntent.Amount
           | .error _ => none)] := by
  obtain ⟨hsize, hsig⟩ := hver
  obtain ⟨hty, hcs⟩ := hcomp
  have hread : readAllMax req.Body 65536 = .ok req.Body := by
    simp [readAllMax, Nat.not_lt.mpr hsize]
  simp only [endpointWebhookCallback, hread, hsig, hty, hcs, hname, hfortune, hpi,
    ne_eq, not_true_eq_false, if_false]
  split <;> simp [sinkCalls]

/-- The fields of a notification start with Name and Fortune. -/
theorem notification_fields (n f : String) (price : Option Int) :
    ∃ extra, notification n f price =
      { Embeds := [{ Title := "New Request", Color := 0x00cc00,
                     Fields := { Name := "Name", Value := n } ::
                       { Name := "Fortune", Value := f } :: extra }] } := by
  cases price with
  | none => exact ⟨[], by simp [notification]⟩
  | some a => exact ⟨[{ Name := "Price", Value := priceValue a }], by simp [notification]⟩

/-- Round trip of the metadata when the session carries a payment-intent
reference: the parameters sent to the processor for a validated request
carry `name` and `fortune` of the request, and a verified completed event
whose session echoes the two entries yields exactly one notification, whose
first two fields are Name and Fortune with the values of the request. -/
theorem metadata_round_trip (config : configStructure) (world world2 : World)
    (req req2 : Request) (a : Int) (d : sessionCreateRequest) (event : Event)
    (cs : CheckoutSession) (pi : PaymentIntent)
    (hval : Validated world req a d) (hver : Verified config world2 req2 event)
    (hcomp : Completed world2 event cs)
    (hname : cs.Metadata.lookup "name" = (sessionParams config a d).Metadata.lookup "name")
    (hfortune : cs.Metadata.lookup "fortune"
      = (sessionParams config a d).Metadata.lookup "fortune")
    (hpi : cs.PaymentIntent = some pi) :
    sessionCalls (endpointSessionCreate config world req).effects
        = [sessionParams config a d] ∧
      (sessionParams config a d).Metadata.lookup "name" = some d.Name ∧
      (sessionParams config a d).Metadata.lookup "fortune" = some d.Fortune ∧
      ∃ extra, sinkCalls (endpointWebhookCallback config world2 req2).effects
        = [{ Embeds := [{ Title := "New Request", Color := 0x00cc00,
                          Fields := { Name := "Name", Value := d.Name } ::
                            { Name := "Fortune", Value := d.Fortune } :: extra }] }] := by
  have hm := sessionParams_metadata config a d
  have h1 : (sessionParams config a d).Metadata.lookup "name" = some d.Name := by
    rw [hm]; simp [List.lookup]
  have h2 : (sessionParams config a d).Metadata.lookup "fortune" = some d.Fortune := by
    rw [hm]; simp [List.lookup]
  refine ⟨?_, h1, h2, ?_⟩
  · rw [sessionCreate_validated config world req a d hval]
    split <;> simp [sessionCalls]
  · rw [webhook_notifies config world2 req2 event cs pi d.Name d.Fortune hver hcomp
      (hname.trans h1) (hfortune.trans h2) hpi]
    obtain ⟨extra, hx⟩ := notification_fields d.Name d.Fortune
      (match world2.paymentIntentGet pi.ID with
       | .ok paymentIntent => some paymentIntent.Amount
       | .error _ => none)
    exact ⟨extra, by rw [hx]⟩


/-! ## Rounding to binary64 -/

/-- With enough fuel, `bitLengthAux` is the number of binary digits. -/
theorem bitLengthAux_spec (fuel : Nat) : ∀ n : Nat, n ≤ fuel →
    n < 2 ^ bitLengthAux fuel n ∧ (0 < n → 2 ^ bitLengthAux fuel n ≤ 2 * n) := by
  induction fuel with
  | zero =>
    intro n hn
    have : n = 0 := by omega
    subst this
    simp [bitLengthAux]
  | succ fuel ih =>
    intro n hn
    by_cases h0 : n = 0
    · subst h0; simp [bitLengthAux]
    · obtain ⟨h1, h2⟩ := ih (n / 2) (by omega)
      simp only [bitLengthAux, h0, if_false, pow_succ]
      refine ⟨by omega, fun _ => ?_⟩
      by_cases h3 : 0 < n / 2
      · have := h2 h3; omega
      · have h4 : n / 2 = 0 := by omega
        have h5 : n = 1 := by omega
        subst h5
        have h6 : bitLengthAux fuel (1 / 2) = 0 := by
          cases fuel <;> simp [bitLengthAux]
        rw [h6]; norm_num

/-- The number of binary digits: `n < 2^(bitLength n) ≤ 2 n` for positive `n`. -/
theorem bitLength_spec (n : Nat) :
    n < 2 ^ bitLength n ∧ (0 < n → 2 ^ bitLength n ≤ 2 * n) :=
  bitLengthAux_spec n n (le_refl n)

/-- Comparing `x * 2^j` with `y` for an integer `j`, without fractions. -/
theorem shift_le_iff (x y : Nat) (j : Int) :
    x * 2 ^ j.toNat ≤ y * 2 ^ (-j).toNat ↔ (x : ℚ) * (2 : ℚ) ^ j ≤ (y : ℚ) := by
  rcases le_or_lt 0 j with hj | hj
  · obtain ⟨m, rfl⟩ := Int.eq_ofNat_of_zero_le hj
    have h1 : (-(m : Int)).toNat = 0 := by omega
    simp only [Int.toNat_ofNat, h1, pow_zero, mul_one, zpow_natCast]
    constructor
    · intro h; exact_mod_cast h
    · intro h; exact_mod_cast h
  · obtain ⟨m, hm⟩ : ∃ m : Nat, j = -(m : Int) := ⟨(-j).toNat, by omega⟩
    subst hm
    have h1 : (-(m : Int)).toNat = 0 := by omega
    have h2 : (- -(m : Int)).toNat = m := by omega
    simp only [h1, h2, pow_zero, mul_one, zpow_neg, zpow_natCast]
    have hpos : (0 : ℚ) < (2 : ℚ) ^ m := by positivity
    rw [← div_eq_mul_inv, div_le_iff₀ hpos]
    constructor
    · intro h; exact_mod_cast h
    · intro h; exact_mod_cast h

/-- The exponent chosen by `ulpExponent` leaves at least 53 significant bits:
`2^52 ≤ (n / d) / 2^e`, written without fractions. -/
theorem ulpExponent_lower (n d : Nat) (hn : 0 < n) (hd : 0 < d) :
    2 ^ 52 * d * 2 ^ (ulpExponent n d).toNat ≤ n * 2 ^ (-(ulpExponent n d)).toNat := by
  rw [shift_le_iff]
  have hnq : (0 : ℚ) < n := by exact_mod_cast hn
  have hdq : (0 : ℚ) < d := by exact_mod_cast hd
  have h2 : (2 : ℚ) ≠ 0 := by norm_num
  simp only [ulpExponent]
  split
  · rename_i hc
    rw [shift_le_iff] at hc
    rw [zpow_sub₀ h2]
    push_cast
    calc (2 : ℚ) ^ 52 * d * ((2 : ℚ) ^ ((bitLength n : Int) - bitLength d) / 2 ^ (52 : Int))
        = d * (2 : ℚ) ^ ((bitLength n : Int) - bitLength d) := by
          have : ((2 : ℚ) ^ (52 : Int)) = 2 ^ 52 := by norm_num
          rw [this]; field_simp; ring
      _ ≤ n := hc
  · obtain ⟨_, hn2⟩ := bitLength_spec n
    obtain ⟨hd1, _⟩ := bitLength_spec d
    have hn3 : (2 : ℚ) ^ (bitLength n) ≤ 2 * n := by exact_mod_cast hn2 hn
    have hd3 : (d : ℚ) < 2 ^ (bitLength d) := by exact_mod_cast hd1
    have e1 : (2 : ℚ) ^ ((bitLength n : Int) - bitLength d - 1 - 52)
        = 2 ^ (bitLength n) / (2 ^ (bitLength d) * 2 * 2 ^ 52) := by
      rw [zpow_sub₀ h2, zpow_sub₀ h2, zpow_sub₀ h2, zpow_natCast, zpow_natCast]
      norm_num
      field_simp
    rw [e1]
    push_cast
    have hbd : (0 : ℚ) < 2 ^ (bitLength d) := by positivity
    rw [mul_div_assoc', div_le_iff₀ (by positivity)]
    nlinarith [mul_le_mul_of_nonneg_left hn3 (le_of_lt hdq),
      mul_lt_mul_of_pos_left hd3 hnq]

/-- The quotient rounded by `divRoundHalfEven` is within half a unit of `n / d`. -/
theorem divRoundHalfEven_near (n d : Nat) (hd : 0 < d) :
    2 * (divRoundHalfEven n d * d) ≤ 2 * n + d ∧ 2 * n ≤ 2 * (divRoundHalfEven n d * d) + d := by
  have hdm := Nat.div_add_mod n d
  have hr := Nat.mod_lt n hd
  have hm : n / d * d = d * (n / d) := Nat.mul_comm _ _
  simp only [divRoundHalfEven]
  split
  · omega
  · split
    · rw [Nat.add_mul]; omega
    · split
      · omega
      · rw [Nat.add_mul]; omega

/-- An integer strictly within half a unit of `n / d` is the rounded quotient. -/
theorem divRoundHalfEven_eq (n d k : Nat) (hd : 0 < d)
    (h1 : 2 * n < 2 * (k * d) + d) (h2 : 2 * (k * d) < 2 * n + d) :
    divRoundHalfEven n d = k := by
  obtain ⟨h3, h4⟩ := divRoundHalfEven_near n d hd
  rcases Nat.lt_trichotomy (divRoundHalfEven n d) k with h | h | h
  · have : (divRoundHalfEven n d + 1) * d ≤ k * d := Nat.mul_le_mul_right d h
    rw [Nat.add_mul] at this
    omega
  · exact h
  · have : (k + 1) * d ≤ divRoundHalfEven n d * d := Nat.mul_le_mul_right d h
    rw [Nat.add_mul] at this
    omega

/-- The result of `roundFloat64` on a positive rational: a significand `m`
and shifts `u`, `t`, one of them zero, with `2^52 ≤ (n / d) / 2^(u - t)` and
`m` within half a unit of `(n / d) / 2^(u - t)`. -/
theorem roundFloat64_spec (neg : Bool) (n d : Nat) (hn : 0 < n) (hd : 0 < d) :
    ∃ m u t : Nat, roundFloat64 neg n d = { neg := neg, num := m * 2 ^ u, den := 2 ^ t } ∧
      (u = 0 ∨ t = 0) ∧
      2 ^ 52 * d * 2 ^ u ≤ n * 2 ^ t ∧
      2 * (m * (d * 2 ^ u)) ≤ 2 * (n * 2 ^ t) + d * 2 ^ u ∧
      2 * (n * 2 ^ t) ≤ 2 * (m * (d * 2 ^ u)) + d * 2 ^ u := by
  refine ⟨divRoundHalfEven (n * 2 ^ (-(ulpExponent n d)).toNat) (d * 2 ^ (ulpExponent n d).toNat),
    (ulpExponent n d).toNat, (-(ulpExponent n d)).toNat, ?_, by omega,
    ulpExponent_lower n d hn hd, ?_⟩
  · have : n ≠ 0 := by omega
    simp [roundFloat64, this]
  · exact divRoundHalfEven_near _ _ (by positivity)


/-- Conversion of a non-negative integer below `2^53` is exact. -/
theorem ofInt_exact (a : Nat) (h0 : 0 < a) (ha : a < 2 ^ 53) :
    ∃ t : Nat, Float64.ofInt (a : Int) = { neg := false, num := a * 2 ^ t, den := 2 ^ t } := by
  obtain ⟨m, u, t, hr, hut, hlow, hn1, hn2⟩ := roundFloat64_spec false a 1 h0 (by norm_num)
  have hu : u = 0 := by
    rcases hut with h | h
    · exact h
    · subst h
      by_contra hne
      have h2 : 2 ≤ 2 ^ u := by
        calc 2 = 2 ^ 1 := by norm_num
          _ ≤ 2 ^ u := Nat.pow_le_pow_right (by norm_num) (by omega)
      have h3 : 2 ^ 52 * 2 ≤ 2 ^ 52 * 2 ^ u := Nat.mul_le_mul_left _ h2
      simp only [mul_one, pow_zero] at hlow
      omega
  subst hu
  simp only [pow_zero, mul_one] at hr hn1 hn2
  have hm : m = a * 2 ^ t := by omega
  refine ⟨t, ?_⟩
  have hneg : decide ((a : Int) < 0) = false := by simp
  simp only [Float64.ofInt, hneg, Int.natAbs_ofNat, hr, hm]

/-- The quotient by `100.0` of a converted amount below `100 * 2^46`, printed
with two decimals, shows the amount itself. -/
theorem sprintf2f_div_hundred (a : Nat) (h0 : 0 < a) (ha : a < 100 * 2 ^ 46) :
    sprintf2f ((Float64.ofInt (a : Int)).div Float64.hundred) = twoDecimals a := by
  obtain ⟨t1, hx⟩ := ofInt_exact a h0 (by omega)
  have hP : 0 < 2 ^ t1 := by positivity
  obtain ⟨m, u, t, hr, hut, hlow, hn1, hn2⟩ :=
    roundFloat64_spec false (a * 2 ^ t1) (2 ^ t1 * 100) (by positivity) (by positivity)
  -- the unit in the last place is at most `2^(-7)`
  have ht : 7 ≤ t := by
    by_contra hlt
    have hQ : 2 ^ t ≤ 2 ^ 6 := Nat.pow_le_pow_right (by norm_num) (by omega)
    have hU : 1 ≤ 2 ^ u := Nat.one_le_two_pow
    have h1 : a * 2 ^ t1 * 2 ^ t ≤ a * 2 ^ t1 * 2 ^ 6 := Nat.mul_le_mul_left _ hQ
    have h2 : 2 ^ 52 * (2 ^ t1 * 100) * 1 ≤ 2 ^ 52 * (2 ^ t1 * 100) * 2 ^ u :=
      Nat.mul_le_mul_left _ hU
    have h3 : a * 2 ^ 6 < 100 * 2 ^ 52 := by omega
    have h4 : a * 2 ^ 6 * 2 ^ t1 < 100 * 2 ^ 52 * 2 ^ t1 := Nat.mul_lt_mul_of_pos_right h3 hP
    have e1 : a * 2 ^ t1 * 2 ^ 6 = a * 2 ^ 6 * 2 ^ t1 := by ring
    have e2 : 2 ^ 52 * (2 ^ t1 * 100) * 1 = 100 * 2 ^ 52 * 2 ^ t1 := by ring
    omega
  have hu : u = 0 := by omega
  subst hu
  simp only [pow_zero, mul_one] at hr hn1 hn2
  have hQ : 2 ^ 7 ≤ 2 ^ t := Nat.pow_le_pow_right (by norm_num) ht
  -- cancel the common factor `2^t1`
  have hn1' : 2 * (m * 100) ≤ 2 * (a * 2 ^ t) + 100 := by
    have e1 : 2 * (m * (2 ^ t1 * 100)) = 2 ^ t1 * (2 * (m * 100)) := by ring
    have e2 : 2 * (a * 2 ^ t1 * 2 ^ t) + 2 ^ t1 * 100 = 2 ^ t1 * (2 * (a * 2 ^ t) + 100) := by
      ring
    rw [e1, e2] at hn1
    exact Nat.le_of_mul_le_mul_left hn1 hP
  have hn2' : 2 * (a * 2 ^ t) ≤ 2 * (m * 100) + 100 := by
    have e1 : 2 * (a * 2 ^ t1 * 2 ^ t) = 2 ^ t1 * (2 * (a * 2 ^ t)) := by ring
    have e2 : 2 * (m * (2 ^ t1 * 100)) + 2 ^ t1 * 100 = 2 ^ t1 * (2 * (m * 100) + 100) := by
      ring
    rw [e1, e2] at hn2
    exact Nat.le_of_mul_le_mul_left hn2 hP
  have hy : (Float64.ofInt (a : Int)).div Float64.hundred
      = { neg := false, num := m, den := 2 ^ t } := by
    rw [hx]
    simp only [Float64.div, Float64.hundred, mul_one]
    exact hr
  have hN : divRoundHalfEven (m * 100) (2 ^ t) = a :=
    divRoundHalfEven_eq (m * 100) (2 ^ t) a (by positivity) (by omega) (by omega)
  rw [hy]
  simp [sprintf2f, hN, twoDecimals]

/-- The `Price` value of an amount below `100 * 2^46` minor units: a dollar
sign and the two-decimal rendering of the amount. -/
theorem priceValue_exact (a : Nat) (ha : a < 100 * 2 ^ 46) :
    priceValue (a : Int) = "$" ++ twoDecimals a := by
  rcases Nat.eq_zero_or_pos a with h0 | h0
  · subst h0; decide
  · simp only [priceValue, sprintf2f_div_hundred a h0 ha]


/-- The `Price` value of an amount of at most `100 * 2^46` minor units. -/
theorem priceValue_upto (a : Nat) (ha : a ≤ 100 * 2 ^ 46) :
    priceValue (a : Int) = "$" ++ twoDecimals a := by
  rcases Nat.lt_or_ge a (100 * 2 ^ 46) with h | h
  · exact priceValue_exact a h
  · have : a = 7036874417766400 := by omega
    subst this
    decide

/-- C10, as stated, fails: for the settled amount 7036874417766401 the
notification carries the Price "$70368744177664.02", while the two-decimal
rendering of the amount is "70368744177664.01". -/
theorem price_of_large_amount_is_rounded :
    sinkCalls (endpointWebhookCallback sampleConfig
        (webhookWorld (aliceSession (some alicePayment))
          (.ok { ID := "pi_1", Amount := 7036874417766401 }) (.ok ()))
        sampleRequest).effects
      = [{ Embeds := [{ Title := "New Request", Color := 0x00cc00,
                        Fields := [{ Name := "Name", Value := "Alice" },
                                   { Name := "Fortune", Value := "Good luck" },
                                   { Name := "Price", Value := "$70368744177664.02" }] }] }] ∧
      twoDecimals 7036874417766401 = "70368744177664.01" ∧
      priceValue 7036874417766401 ≠ "$" ++ twoDecimals 7036874417766401 := by
  decide

/-- C10, amended: for a verified completed event with both metadata entries
whose payment-intent lookup succeeds with a settled amount `a` between 0 and
`100 * 2^46 = 7036874417766400` minor units, the one notification has the
fields Name, Fortune and Price, and the value of Price is a dollar sign
followed by the decimal digits of `a div 100`, a point, and `a mod 100`
written with exactly two digits. -/
theorem webhook_price_field (config : configStructure) (world : World) (req : Request)
    (event : Event) (cs : CheckoutSession) (pi paid : PaymentIntent) (n f : String) (a : Nat)
    (hver : Verified config world req event) (hcomp : Completed world event cs)
    (hname : cs.Metadata.lookup "name" = some n) (hfortune : cs.Metadata.lookup "fortune" = some f)
    (hpi : cs.PaymentIntent = some pi) (hlookup : world.paymentIntentGet pi.ID = .ok paid)
    (hamount : paid.Amount = (a : Int)) (ha : a ≤ 100 * 2 ^ 46) :
    sinkCalls (endpointWebhookCallback config world req).effects
      = [{ Embeds := [{ Title := "New Request", Color := 0x00cc00,
                        Fields := [{ Name := "Name", Value := n },
                                   { Name := "Fortune", Value := f },
                                   { Name := "Price",
                                     Value := "$" ++ (toString (a / 100) ++ "." ++
                                       twoDigits (a % 100)) }] }] }] := by
  rw [webhook_notifies config world req event cs pi n f hver hcomp hname hfortune hpi, hlookup]
  have hp := priceValue_upto a ha
  simp only [twoDecimals] at hp
  simp [notification, hamount, hp]

/-- C10, amended, at the amounts 500 and 1234. -/
theorem webhook_price_field_witness :
    sinkCalls (endpointWebhookCallback sampleConfig
        (webhookWorld (aliceSession (some alicePayment)) (.ok alicePayment) (.ok ()))
        sampleRequest).effects
      = [{ Embeds := [{ Title := "New Request", Color := 0x00cc00,
                        Fields := [{ Name := "Name", Value := "Alice" },
                                   { Name := "Fortune", Value := "Good luck" },
                                   { Name := "Price", Value := "$5.00" }] }] }] ∧
      sinkCalls (endpointWebhookCallback sampleConfig
        (webhookWorld (aliceSession (some alicePayment))
          (.ok { ID := "pi_1", Amount := 1234 }) (.ok ()))
        sampleRequest).effects
      = [{ Embeds := [{ Title := "New Request", Color := 0x00cc00,
                        Fields := [{ Name := "Name", Value := "Alice" },
                                   { Name := "Fortune", Value := "Good luck" },
                                   { Name := "Price", Value := "$12.34" }] }] }] :=
  ⟨webhook_price_field sampleConfig _ sampleRequest completedEvent
      (aliceSession (some alicePayment)) alicePayment alicePayment "Alice" "Good luck" 500
      ⟨by decide, rfl⟩ ⟨rfl, rfl⟩ (by decide) (by decide) rfl rfl rfl (by decide),
   webhook_price_field sampleConfig _ sampleRequest completedEvent
      (aliceSession (some alicePayment)) alicePayment { ID := "pi_1", Amount := 1234 }
      "Alice" "Good luck" 1234
      ⟨by decide, rfl⟩ ⟨rfl, rfl⟩ (by decide) (by decide) rfl rfl rfl (by decide)⟩

/-- C8: the request of the end-to-end scenario is validated and the
parameters sent to the processor carry name "Alice" and fortune "Good luck";
on the verified completed event whose session echoes both entries and has no
payment-intent reference, the handler panics and sends no notification. -/
theorem round_trip_lost_without_payment_intent :
    Validated (sessionWorld aliceData) sampleRequest 500 aliceData ∧
      sessionCalls
        (endpointSessionCreate sampleConfig (sessionWorld aliceData) sampleRequest).effects
        = [sessionParams sampleConfig 500 aliceData] ∧
      (sessionParams sampleConfig 500 aliceData).Metadata
        = [("name", "Alice"), ("fortune", "Good luck")] ∧
      Verified sampleConfig (webhookWorld (aliceSession none) (.ok alicePayment) (.ok ()))
        sampleRequest completedEvent ∧
      Completed (webhookWorld (aliceSession none) (.ok alicePayment) (.ok ())) completedEvent
        (aliceSession none) ∧
      (aliceSession none).Metadata = (sessionParams sampleConfig 500 aliceData).Metadata ∧
      sinkCalls (endpointWebhookCallback sampleConfig
        (webhookWorld (aliceSession none) (.ok alicePayment) (.ok ()))
        sampleRequest).effects = [] ∧
      (endpointWebhookCallback sampleConfig
        (webhookWorld (aliceSession none) (.ok alicePayment) (.ok ()))
        sampleRequest).panicked = true := by
  refine ⟨alice_validated _ _ _ _ _, ?_, ?_, ⟨by decide, rfl⟩, ⟨rfl, rfl⟩, ?_, ?_, ?_⟩ <;> decide

/-- The round trip at the end-to-end scenario, with a payment intent. -/
theorem metadata_round_trip_alice :
    ∃ extra, sinkCalls (endpointWebhookCallback sampleConfig
        (webhookWorld (aliceSession (some alicePayment)) (.ok alicePayment) (.ok ()))
        sampleRequest).effects
      = [{ Embeds := [{ Title := "New Request", Color := 0x00cc00,
                        Fields := { Name := "Name", Value := "Alice" } ::
                          { Name := "Fortune", Value := "Good luck" } :: extra }] }] :=
  (metadata_round_trip sampleConfig (sessionWorld aliceData) _ sampleRequest sampleRequest
    500 aliceData completedEvent (aliceSession (some alicePayment)) alicePayment
    (alice_validated _ _ _ _ _) ⟨by decide, rfl⟩ ⟨rfl, rfl⟩ (by decide) (by decide) rfl).2.2.2

end Donate
